import Mathlib

/-!
Shallow embedding of `src/push_to_github.py`, a command-line tool that
verifies a local git working tree is clean, optionally creates a remote
repository via the GitHub REST API, configures a remote, and pushes a
branch.

The program is sequential orchestration of three external collaborators
(a git CLI, an HTTP API, credential sources).  The embedding models each
external collaborator's response as a field of a "world" record, and each
program function as a pure Lean function from that world.  Observable
side effects (subprocess invocations, HTTP calls, warnings, prints) are
reified as an event trace, and raised exceptions as `Except` errors, so
that temporal claims ("X never happens before Y", "no push is performed")
become statements about the trace.
-/

namespace PushToGithub

/-- Characters removed from both ends by Python's `str.strip()`,
restricted to ASCII whitespace as `Char.isWhitespace` defines it. -/
def stripChars (l : List Char) : List Char :=
  ((l.dropWhile Char.isWhitespace).reverse.dropWhile Char.isWhitespace).reverse

/-- Python `s.strip()`.  (Structurally recursive so that concrete runs
reduce; Lean's own `String.trim` is extensionally the same operation but
is defined by well-founded recursion.) -/
def pyStrip (s : String) : String := String.mk (stripChars s.data)

/-- Python truthiness of an optional string: `None` and `""` are falsy.
Used wherever the source tests a possibly-`None` string (`if not owner`,
`if token`, `args.repo or root.name`). -/
def optTruthy : Option String → Bool
  | none => false
  | some s => s != ""

/-- Python `a or b` for an optional string `a` and string default `b`,
as in `repo_name = args.repo or root.name` (line 143). -/
def pyOr (a : Option String) (b : String) : String :=
  if optTruthy a then a.getD "" else b

/-! ## Error taxonomy (section 7 of the spec)

Each constructor corresponds to one `raise RuntimeError(...)` site in the
source; the source uses a single Python exception type, distinguished here
by raise site as the spec's taxonomy does. -/

inductive Err where
  /-- line 79: no token obtainable from any source. -/
  | credentialMissing
  /-- line 32: `git status --porcelain` output non-empty. -/
  | workingTreeDirty
  /-- line 116: creation call failed with a status other than 201/422. -/
  | repositoryCreation (status : Nat) (body : String)
  /-- lines 90/94: `GET /user` failed or returned no usable login. -/
  | authLookup
  /-- line 164: no owner determinable by any means. -/
  | ownerUnresolved
  deriving Repr, DecidableEq

/-! ## Credential resolver (`get_github_token`, lines 34–79) -/

/-- Which fallback sources `get_github_token` invoked, in order.
(Reading the environment variable is not an invocation of an external
source and is not traced.) -/
inductive CredEvent where
  /-- `try_load_shared_env()` was called (line 63). -/
  | loadSharedEnv
  /-- `try_get_token_from_gh()` was called, i.e. the `gh auth token`
  subprocess path (line 68). -/
  | callGh
  /-- `getpass.getpass(...)` interactive prompt was reached (line 74). -/
  | promptUser
  deriving Repr, DecidableEq

/-- Outcome of the `gh auth token` subprocess in `try_get_token_from_gh`
(lines 45–54): either `subprocess.run` raised, or the process exited with
a return code and stdout text. -/
inductive GhOutcome where
  | raised
  | exited (returncode : Int) (stdout : String)
  deriving Repr, DecidableEq

/-- `try_get_token_from_gh` (lines 45–54): `None` on exception or nonzero
exit; otherwise the stripped stdout, with the empty string mapped to
`None` (`return token or None`). -/
def try_get_token_from_gh : GhOutcome → Option String
  | GhOutcome.raised => none
  | GhOutcome.exited rc out =>
      if rc != 0 then none
      else
        let token := pyStrip out
        if token = "" then none else some token

/-- The external inputs `get_github_token` can observe.  `envToken` is
the value of `GITHUB_TOKEN` at entry (`""` models an unset variable, as
the source reads it via `os.environ.get("GITHUB_TOKEN") or ""`).
`envAfterLoad` is the value of `GITHUB_TOKEN` after `try_load_shared_env()`
returns — the shared loader is external code whose effect on the
environment is arbitrary, and a failed load is the world where
`envAfterLoad = envToken`.  `gh` is the `gh auth token` subprocess
outcome, `stdinIsTty` is `sys.stdin.isatty()`, and `promptInput` is what
`getpass.getpass` would return. -/
structure CredWorld where
  envToken : String
  envAfterLoad : String
  gh : GhOutcome
  stdinIsTty : Bool
  promptInput : String
  deriving Repr, DecidableEq

/-- Result of `get_github_token`: the resolved token (`none` models the
`RuntimeError` at line 79, the spec's CredentialMissingError), the final
value of `GITHUB_TOKEN`, the fallback sources invoked in order, and the
values written back into `os.environ["GITHUB_TOKEN"]` (lines 70 and 76),
in order. -/
structure CredResult where
  token : Option String
  envToken : String
  events : List CredEvent
  writes : List String
  deriving Repr, DecidableEq

/-- `get_github_token(allow_prompt)` (lines 57–79): environment variable,
then shared loader followed by re-reading the environment, then the
`gh` CLI helper (writing the token back to the environment), then — if
prompting is allowed and stdin is a tty — an interactive prompt (also
writing back), else failure. -/
def get_github_token (allow_prompt : Bool) (w : CredWorld) : CredResult :=
  let token := pyStrip w.envToken
  if token != "" then
    { token := some token, envToken := w.envToken, events := [], writes := [] }
  else
    let env1 := w.envAfterLoad
    let token := pyStrip env1
    if token != "" then
      { token := some token, envToken := env1,
        events := [CredEvent.loadSharedEnv], writes := [] }
    else
      match try_get_token_from_gh w.gh with
      | some t =>
          { token := some t, envToken := t,
            events := [CredEvent.loadSharedEnv, CredEvent.callGh],
            writes := [t] }
      | none =>
          if allow_prompt && w.stdinIsTty then
            let t := pyStrip w.promptInput
            if t != "" then
              { token := some t, envToken := t,
                events := [CredEvent.loadSharedEnv, CredEvent.callGh,
                           CredEvent.promptUser],
                writes := [t] }
            else
              { token := none, envToken := env1,
                events := [CredEvent.loadSharedEnv, CredEvent.callGh,
                           CredEvent.promptUser],
                writes := [] }
          else
            { token := none, envToken := env1,
              events := [CredEvent.loadSharedEnv, CredEvent.callGh],
              writes := [] }

/-! ## Repository API client (`get_authed_login`, `create_repo`) -/

/-- Parsed `GET /user` response (lines 88–92): HTTP status and the
`login` field of the JSON body (`none` when absent). -/
structure UserResp where
  status : Nat
  loginField : Option String
  deriving Repr, DecidableEq

/-- `get_authed_login` (lines 82–95): non-200 status or a missing/blank
`login` field raises (the spec's AuthLookupError); otherwise returns the
stripped login. -/
def get_authed_login (r : UserResp) : Except Err String :=
  if r.status != 200 then Except.error Err.authLookup
  else
    let login := pyStrip (r.loginField.getD "")
    if login = "" then Except.error Err.authLookup
    else Except.ok login

/-- The fields of the 201 creation-response body that `main` reads:
`repo_info.get("owner", {}).get("login", owner)` and
`repo_info.get("clone_url")` (lines 158–159).  `owner_login = none`
models a body where `owner.login` is absent, in which case the `get`
default (the current `owner`) is kept. -/
structure RepoInfo where
  owner_login : Option String
  clone_url : Option String
  deriving Repr, DecidableEq

/-- `POST /user/repos` response: HTTP status, raw text (used in the
warning and error messages), and the parsed body fields read on 201. -/
structure CreateResp where
  status : Nat
  text : String
  json : RepoInfo
  deriving Repr, DecidableEq

/-- The warning `create_repo` writes to stderr on a 422 response
(line 114). -/
def createWarning (body : String) : String :=
  "警告：仓库可能已存在，跳过创建。响应: " ++ body ++ "\n"

/-- `create_repo` (lines 98–116), modelled on the HTTP response: 201
returns the parsed body, 422 emits a warning and returns `none`
(repository already exists), anything else raises the spec's
RepositoryCreationError.  The returned list is the warnings written to
stderr. -/
def create_repo (resp : CreateResp) : Except Err (Option RepoInfo × List String) :=
  if resp.status = 201 then Except.ok (some resp.json, [])
  else if resp.status = 422 then Except.ok (none, [createWarning resp.text])
  else Except.error (Err.repositoryCreation resp.status resp.text)

/-! ## Orchestrator (`main`, lines 128–175) and its event trace -/

/-- Observable actions of a run: each subprocess spawn, HTTP request,
warning, and print, in program order. -/
inductive Event where
  /-- `get_github_token` was entered (line 147). -/
  | resolveCredential
  /-- `git init` (line 25). -/
  | gitInit
  /-- `git status --porcelain` (line 30). -/
  | gitStatus
  /-- `POST /user/repos` (line 109). -/
  | httpCreateRepo
  /-- a warning written to stderr. -/
  | warn (msg : String)
  /-- `GET /user` (line 88). -/
  | httpGetUser
  /-- `git remote` (line 121). -/
  | gitRemoteList
  /-- `git remote set-url <name> <url>` (line 123). -/
  | gitRemoteSetUrl (name : String) (url : Option String)
  /-- `git remote add <name> <url>` (line 125). -/
  | gitRemoteAdd (name : String) (url : Option String)
  /-- the dry-run plan print (line 171). -/
  | printPlan (url : Option String) (branch : String) (remote : String)
  /-- `git push -u <remote> <branch>` (line 174). -/
  | gitPush (remote : String) (branch : String)
  /-- the success print (line 175). -/
  | printDone (url : Option String) (branch : String)
  deriving Repr, DecidableEq

/-- Parsed command-line arguments (lines 129–140).  `path` only
determines the project root, which the world models directly, so it is
omitted; `rootName` in `GitWorld` plays the role of `root.name`.
`private` is a Lean keyword, hence `private_flag`. -/
structure Args where
  repo : Option String := none
  owner : Option String := none
  branch : String := "main"
  remote_name : String := "origin"
  private_flag : Bool := false
  description : Option String := none
  skip_create : Bool := false
  dry_run : Bool := false
  no_prompt_token : Bool := false
  deriving Repr, DecidableEq

/-- What the git CLI reports about the project directory: `root.name`,
whether `root/.git` exists, the (stripped, as `run_cmd` strips stdout)
output of `git status --porcelain`, and the lines of `git remote`. -/
structure GitWorld where
  rootName : String
  hasGitDir : Bool
  statusOut : String
  remotes : List String
  deriving Repr, DecidableEq

/-- All external inputs of one run. -/
structure MainWorld where
  git : GitWorld
  cred : CredWorld
  createResp : CreateResp
  userResp : UserResp
  deriving Repr, DecidableEq

/-- `ensure_git_repo` (lines 22–25): spawns `git init` only when no
`.git` directory exists. -/
def ensure_git_repo (root : GitWorld) : List Event :=
  if root.hasGitDir then [] else [Event.gitInit]

/-- `ensure_clean_tree` (lines 28–32): raises the spec's
WorkingTreeDirtyError iff the `git status --porcelain` output is
non-empty. -/
def ensure_clean_tree (root : GitWorld) : Except Err Unit :=
  if root.statusOut != "" then Except.error Err.workingTreeDirty
  else Except.ok ()

/-- `set_remote` (lines 119–125) as the subprocess it chooses after
listing remotes: `set-url` when the alias is already listed, `add`
otherwise. -/
def set_remote (remotes : List String) (remote_name : String)
    (remote_url : Option String) : Event :=
  if remote_name ∈ remotes then Event.gitRemoteSetUrl remote_name remote_url
  else Event.gitRemoteAdd remote_name remote_url

/-- The remote URL synthesized at line 166:
`https://github.com/{owner}/{repo_name}.git`. -/
def synthUrl (owner repo_name : String) : String :=
  "https://github.com/" ++ owner ++ "/" ++ repo_name ++ ".git"

/-- Owner after line 158: `repo_info.get("owner", {}).get("login", owner)` —
the body's `owner.login` when present, otherwise the previous value. -/
def ownerFromInfo (info : RepoInfo) (owner : Option String) : Option String :=
  match info.owner_login with
  | some s => some s
  | none => owner

/-- Lines 156–166 of `main`: determine the owner and remote URL.  With a
creation descriptor, take its `owner.login` (falling back to `--owner`)
and its `clone_url`.  Otherwise, when `--owner` is falsy and a token was
resolved, look up the authenticated login via `GET /user`; a still-falsy
owner raises the spec's OwnerUnresolvedError; else synthesize the URL.
Returns the events of this step and `(owner, remote_url)`. -/
def resolveRemote (argOwner token : Option String) (repo_info : Option RepoInfo)
    (repo_name : String) (userResp : UserResp) :
    List Event × Except Err (Option String × Option String) :=
  match repo_info with
  | some info => ([], Except.ok (ownerFromInfo info argOwner, info.clone_url))
  | none =>
      let step : List Event × Except Err (Option String) :=
        if !(optTruthy argOwner) && optTruthy token then
          match get_authed_login userResp with
          | Except.error e => ([Event.httpGetUser], Except.error e)
          | Except.ok l => ([Event.httpGetUser], Except.ok (some l))
        else ([], Except.ok argOwner)
      match step.2 with
      | Except.error e => (step.1, Except.error e)
      | Except.ok owner =>
          if !(optTruthy owner) then (step.1, Except.error Err.ownerUnresolved)
          else (step.1, Except.ok (owner, some (synthUrl (owner.getD "") repo_name)))

/-- Final values of a successful run: the `owner` variable, the
`remote_url` variable, and whether `git push` ran (false exactly on the
dry-run early return at line 172). -/
structure MainOk where
  owner : Option String
  remote_url : Option String
  pushed : Bool
  deriving Repr, DecidableEq

/-- Lines 168–175: configure the remote, then either print the dry-run
plan and return, or push and print the confirmation. -/
def mainFinish (args : Args) (w : MainWorld) (owner remote_url : Option String) :
    List Event × Except Err MainOk :=
  let ev3 := [Event.gitRemoteList, set_remote w.git.remotes args.remote_name remote_url]
  if args.dry_run then
    (ev3 ++ [Event.printPlan remote_url args.branch args.remote_name],
     Except.ok { owner := owner, remote_url := remote_url, pushed := false })
  else
    (ev3 ++ [Event.gitPush args.remote_name args.branch,
             Event.printDone remote_url args.branch],
     Except.ok { owner := owner, remote_url := remote_url, pushed := true })

/-- Lines 156–175: owner/URL resolution followed by the finish. -/
def mainResolveRemote (args : Args) (w : MainWorld) (token : Option String)
    (repo_info : Option RepoInfo) (repo_name : String) :
    List Event × Except Err MainOk :=
  match resolveRemote args.owner token repo_info repo_name w.userResp with
  | (ev, Except.error e) => (ev, Except.error e)
  | (ev, Except.ok (owner, remote_url)) =>
      let p := mainFinish args w owner remote_url
      (ev ++ p.1, p.2)

/-- Lines 152–175: the creation attempt (unless `--skip-create`) and
everything after it. -/
def mainAfterClean (args : Args) (w : MainWorld) (token : Option String) :
    List Event × Except Err MainOk :=
  let repo_name := pyOr args.repo w.git.rootName
  if args.skip_create then
    mainResolveRemote args w token none repo_name
  else
    match create_repo w.createResp with
    | Except.error e => ([Event.httpCreateRepo], Except.error e)
    | Except.ok (repo_info, warns) =>
        let p := mainResolveRemote args w token repo_info repo_name
        (Event.httpCreateRepo :: (warns.map Event.warn ++ p.1), p.2)

/-- Lines 149–175: `ensure_git_repo`, `ensure_clean_tree`, and everything
after the clean check. -/
def mainAfterToken (args : Args) (w : MainWorld) (token : Option String) :
    List Event × Except Err MainOk :=
  let pre := ensure_git_repo w.git ++ [Event.gitStatus]
  match ensure_clean_tree w.git with
  | Except.error e => (pre, Except.error e)
  | Except.ok _ =>
      let p := mainAfterClean args w token
      (pre ++ p.1, p.2)

/-- `main` (lines 128–175).  Note the source's order: unless creation is
skipped, the credential is resolved (lines 145–147) BEFORE
`ensure_git_repo`/`ensure_clean_tree` (lines 149–150). -/
def mainRun (args : Args) (w : MainWorld) : List Event × Except Err MainOk :=
  if args.skip_create then
    mainAfterToken args w none
  else
    match (get_github_token (!args.no_prompt_token) w.cred).token with
    | none => ([Event.resolveCredential], Except.error Err.credentialMissing)
    | some t =>
        let p := mainAfterToken args w (some t)
        (Event.resolveCredential :: p.1, p.2)

/-! ## State-level model of `set_remote` for the idempotence claim

`set_remote` only observes the remote names (`git remote`) and chooses
`add` or `set-url`; to state idempotence we additionally model the git
remote configuration as an association list of (name, url) and the effect
of the two subcommands on it. -/

/-- The names `git remote` would list for a configuration. -/
def remoteNames (cfg : List (String × String)) : List String :=
  cfg.map Prod.fst

/-- Effect of `git remote set-url n u`: update the URL of the remotes
named `n`, keeping the rest. -/
def setUrlUpdate (cfg : List (String × String)) (n u : String) :
    List (String × String) :=
  cfg.map (fun p => if p.1 = n then (n, u) else p)

/-- One run of `set_remote` on a remote configuration: `add` appends,
`set-url` updates, chosen by the same membership test as `set_remote`. -/
def set_remote_step (cfg : List (String × String)) (n u : String) :
    List (String × String) :=
  if n ∈ remoteNames cfg then setUrlUpdate cfg n u else cfg ++ [(n, u)]

/-! ## Basic lemmas about the resolver and API client -/

lemma try_get_token_from_gh_ne_empty (g : GhOutcome) (t : String)
    (h : try_get_token_from_gh g = some t) : t ≠ "" := by
  unfold try_get_token_from_gh at h
  cases g with
  | raised => simp at h
  | exited rc out =>
      simp only [] at h
      split at h
      · simp at h
      · split at h
        · simp at h
        · simp_all

lemma get_github_token_some_ne_empty (ap : Bool) (w : CredWorld) (t : String)
    (h : (get_github_token ap w).token = some t) : t ≠ "" := by
  by_cases h1 : pyStrip w.envToken = ""
  · by_cases h2 : pyStrip w.envAfterLoad = ""
    · cases hgh : try_get_token_from_gh w.gh with
      | some t' =>
          have ht' := try_get_token_from_gh_ne_empty _ _ hgh
          simp [get_github_token, bne_iff_ne, h1, h2, hgh] at h
          exact h ▸ ht'
      | none =>
          by_cases htty : (ap && w.stdinIsTty) = true
          · by_cases h3 : pyStrip w.promptInput = ""
            · simp [get_github_token, bne_iff_ne, h1, h2, hgh, htty, h3] at h
            · simp [get_github_token, bne_iff_ne, h1, h2, hgh, htty, h3] at h
              exact h ▸ h3
          · simp only [Bool.not_eq_true] at htty
            simp [get_github_token, bne_iff_ne, h1, h2, hgh, htty] at h
    · simp [get_github_token, bne_iff_ne, h1, h2] at h
      exact h ▸ h2
  · simp [get_github_token, bne_iff_ne, h1] at h
    exact h ▸ h1

lemma get_authed_login_error (r : UserResp) (e : Err)
    (h : get_authed_login r = Except.error e) : e = Err.authLookup := by
  unfold get_authed_login at h
  split at h
  · simp_all
  · simp only [] at h
    split at h <;> simp_all

lemma create_repo_error (resp : CreateResp) (e : Err)
    (h : create_repo resp = Except.error e) :
    ∃ s b, e = Err.repositoryCreation s b := by
  unfold create_repo at h
  split at h
  · simp at h
  · split at h
    · simp at h
    · exact ⟨resp.status, resp.text, by simp_all⟩

/-- C3: credential resolution tries env, shared loader (re-checking env),
CLI helper, interactive prompt, in that order, short-circuiting at the
first non-empty token; with a non-empty environment token no other source
is invoked; when every source yields nothing it fails with
CredentialMissingError (`token = none`). -/
theorem credential_chain_ordered_short_circuit (ap : Bool) (w : CredWorld) :
    (pyStrip w.envToken ≠ "" →
      get_github_token ap w =
        { token := some (pyStrip w.envToken), envToken := w.envToken,
          events := [], writes := [] }) ∧
    (pyStrip w.envToken = "" → pyStrip w.envAfterLoad ≠ "" →
      (get_github_token ap w).token = some (pyStrip w.envAfterLoad) ∧
      (get_github_token ap w).events = [CredEvent.loadSharedEnv]) ∧
    (∀ t, pyStrip w.envToken = "" → pyStrip w.envAfterLoad = "" →
      try_get_token_from_gh w.gh = some t →
      (get_github_token ap w).token = some t ∧
      (get_github_token ap w).events = [CredEvent.loadSharedEnv, CredEvent.callGh]) ∧
    (pyStrip w.envToken = "" → pyStrip w.envAfterLoad = "" →
      try_get_token_from_gh w.gh = none →
      ((ap && w.stdinIsTty) = false ∨ pyStrip w.promptInput = "") →
      (get_github_token ap w).token = none) := by
  refine ⟨?_, ?_, ?_, ?_⟩
  · intro h
    simp [get_github_token, bne_iff_ne, h]
  · intro h1 h2
    simp [get_github_token, bne_iff_ne, h1, h2]
  · intro t h1 h2 h3
    simp [get_github_token, bne_iff_ne, h1, h2, h3]
  · intro h1 h2 h3 h4
    rcases h4 with h4 | h4
    · simp [get_github_token, bne_iff_ne, h1, h2, h3, h4]
    · by_cases htty : (ap && w.stdinIsTty) = true
      · simp [get_github_token, bne_iff_ne, h1, h2, h3, h4, htty]
      · simp only [Bool.not_eq_true] at htty
        simp [get_github_token, bne_iff_ne, h1, h2, h3, htty]

/-- Concrete inputs for the C3 witness: environment token set (with
whitespace), every other source also available — none of them is
consulted. -/
def credW3 : CredWorld :=
  { envToken := " tok ", envAfterLoad := "other",
    gh := GhOutcome.exited 0 "ghtok", stdinIsTty := true,
    promptInput := "typed" }

theorem credential_chain_ordered_short_circuit_witness :
    pyStrip credW3.envToken ≠ "" ∧
    (get_github_token true credW3).token = some "tok" ∧
    (get_github_token true credW3).events = [] := by
  have h := (credential_chain_ordered_short_circuit true credW3).1 (by decide)
  refine ⟨by decide, ?_, ?_⟩ <;> (rw [h]; try decide)


lemma get_github_token_no_prompt_none (w : CredWorld)
    (h1 : pyStrip w.envToken = "") (h2 : pyStrip w.envAfterLoad = "")
    (h3 : try_get_token_from_gh w.gh = none) :
    get_github_token false w =
      { token := none, envToken := w.envAfterLoad,
        events := [CredEvent.loadSharedEnv, CredEvent.callGh], writes := [] } := by
  simp [get_github_token, bne_iff_ne, h1, h2, h3]

/-- C9: with `--no-prompt-token` and no token from the environment, the
shared loader, or the CLI helper, the run fails with
CredentialMissingError and the interactive prompt is never invoked, even
when stdin is a tty. -/
theorem no_prompt_token_missing_credential_no_prompt (args : Args) (w : MainWorld)
    (hnp : args.no_prompt_token = true) (hsc : args.skip_create = false)
    (h1 : pyStrip w.cred.envToken = "") (h2 : pyStrip w.cred.envAfterLoad = "")
    (h3 : try_get_token_from_gh w.cred.gh = none)
    (_htty : w.cred.stdinIsTty = true) :
    (mainRun args w).2 = Except.error Err.credentialMissing ∧
    CredEvent.promptUser ∉ (get_github_token (!args.no_prompt_token) w.cred).events := by
  have hg := get_github_token_no_prompt_none w.cred h1 h2 h3
  constructor
  · simp [mainRun, hsc, hnp, hg]
  · simp [hnp, hg]

/-- Concrete inputs for the C9 witness: `--no-prompt-token`, empty
environment, failing loader and CLI helper, interactive stdin. -/
def argsW9 : Args := { no_prompt_token := true }

/-- World for the C9 witness. -/
def mainW9 : MainWorld :=
  { git := { rootName := "proj", hasGitDir := true, statusOut := "", remotes := [] },
    cred := { envToken := "", envAfterLoad := "", gh := GhOutcome.exited 1 "",
              stdinIsTty := true, promptInput := "typed" },
    createResp := { status := 0, text := "",
                    json := { owner_login := none, clone_url := none } },
    userResp := { status := 0, loginField := none } }

theorem no_prompt_token_missing_credential_no_prompt_witness :
    (mainRun argsW9 mainW9).2 = Except.error Err.credentialMissing ∧
    CredEvent.promptUser ∉ (get_github_token (!argsW9.no_prompt_token) mainW9.cred).events :=
  no_prompt_token_missing_credential_no_prompt argsW9 mainW9 (by decide) (by decide)
    (by decide) (by decide) (by decide) (by decide)

/-- C10: the resolver writes the resolved token back into
`GITHUB_TOKEN` on the CLI-helper path and on the interactive-prompt path,
and on every path it performs at most one such write, because the chain
short-circuits at the first successful source. -/
theorem token_env_writeback_both_paths_at_most_once (ap : Bool) (w : CredWorld) :
    (get_github_token ap w).writes.length ≤ 1 ∧
    (∀ t, pyStrip w.envToken = "" → pyStrip w.envAfterLoad = "" →
      try_get_token_from_gh w.gh = some t →
      (get_github_token ap w).writes = [t] ∧
      (get_github_token ap w).envToken = t) ∧
    (pyStrip w.envToken = "" → pyStrip w.envAfterLoad = "" →
      try_get_token_from_gh w.gh = none → (ap && w.stdinIsTty) = true →
      pyStrip w.promptInput ≠ "" →
      (get_github_token ap w).writes = [pyStrip w.promptInput] ∧
      (get_github_token ap w).envToken = pyStrip w.promptInput) := by
  refine ⟨?_, ?_, ?_⟩
  · by_cases h1 : pyStrip w.envToken = ""
    · by_cases h2 : pyStrip w.envAfterLoad = ""
      · cases hgh : try_get_token_from_gh w.gh with
        | some t => simp [get_github_token, bne_iff_ne, h1, h2, hgh]
        | none =>
            by_cases htty : (ap && w.stdinIsTty) = true
            · by_cases h3 : pyStrip w.promptInput = ""
              · simp [get_github_token, bne_iff_ne, h1, h2, hgh, htty, h3]
              · simp [get_github_token, bne_iff_ne, h1, h2, hgh, htty, h3]
            · simp only [Bool.not_eq_true] at htty
              simp [get_github_token, bne_iff_ne, h1, h2, hgh, htty]
      · simp [get_github_token, bne_iff_ne, h1, h2]
    · simp [get_github_token, bne_iff_ne, h1]
  · intro t h1 h2 hgh
    simp [get_github_token, bne_iff_ne, h1, h2, hgh]
  · intro h1 h2 h3 htty hp
    simp [get_github_token, bne_iff_ne, h1, h2, h3, htty, hp]

/-- Concrete inputs for the C10 witness: only the interactive prompt
yields a token (with surrounding whitespace). -/
def credW10 : CredWorld :=
  { envToken := "", envAfterLoad := "", gh := GhOutcome.raised,
    stdinIsTty := true, promptInput := " pat " }

theorem token_env_writeback_both_paths_at_most_once_witness :
    (get_github_token true credW10).writes = ["pat"] ∧
    (get_github_token true credW10).envToken = "pat" ∧
    (get_github_token true credW10).writes.length ≤ 1 := by
  have h := token_env_writeback_both_paths_at_most_once true credW10
  have hp := h.2.2 (by decide) (by decide) (by decide) (by decide) (by decide)
  exact ⟨by rw [hp.1]; decide, by rw [hp.2]; decide, h.1⟩


/-! ## Lemmas about the remote-configuration state model -/

lemma remoteNames_setUrlUpdate (cfg : List (String × String)) (n u : String) :
    remoteNames (setUrlUpdate cfg n u) = remoteNames cfg := by
  induction cfg with
  | nil => rfl
  | cons p l ih =>
      by_cases hp : p.1 = n <;>
        simp_all [remoteNames, setUrlUpdate, hp]

lemma remoteNames_append_single (cfg : List (String × String)) (n u : String) :
    remoteNames (cfg ++ [(n, u)]) = remoteNames cfg ++ [n] := by
  simp [remoteNames]

lemma lookup_setUrlUpdate_self (cfg : List (String × String)) (n u : String)
    (h : n ∈ remoteNames cfg) :
    List.lookup n (setUrlUpdate cfg n u) = some u := by
  induction cfg with
  | nil => simp [remoteNames] at h
  | cons p l ih =>
      obtain ⟨a, b⟩ := p
      by_cases hp : a = n
      · subst hp
        have hhead : setUrlUpdate ((a, b) :: l) a u = (a, u) :: setUrlUpdate l a u := by
          simp [setUrlUpdate]
        rw [hhead, List.lookup_cons]
        simp
      · have hhead : setUrlUpdate ((a, b) :: l) n u = (a, b) :: setUrlUpdate l n u := by
          simp [setUrlUpdate, hp]
        have h' : n ∈ remoteNames l := by
          rcases (by simpa [remoteNames] using h : n = a ∨ n ∈ remoteNames l) with h0 | h0
          · exact absurd h0.symm hp
          · exact h0
        have hne : (n == a) = false := by
          simp [beq_iff_eq]
          exact fun h0 => hp h0.symm
        rw [hhead, List.lookup_cons, hne]
        exact ih h'

lemma set_remote_step_of_mem (cfg : List (String × String)) (n u : String)
    (h : n ∈ remoteNames cfg) :
    set_remote_step cfg n u = setUrlUpdate cfg n u := by
  simp [set_remote_step, h]

lemma set_remote_step_of_not_mem (cfg : List (String × String)) (n u : String)
    (h : n ∉ remoteNames cfg) :
    set_remote_step cfg n u = cfg ++ [(n, u)] := by
  simp [set_remote_step, h]

lemma mem_remoteNames_set_remote_step (cfg : List (String × String)) (n u : String) :
    n ∈ remoteNames (set_remote_step cfg n u) := by
  by_cases hm : n ∈ remoteNames cfg
  · rw [set_remote_step_of_mem cfg n u hm, remoteNames_setUrlUpdate]
    exact hm
  · rw [set_remote_step_of_not_mem cfg n u hm, remoteNames_append_single]
    simp

/-- C8: the remote-configuration step adds the remote when the alias is
absent and updates its URL when present; run twice with the same alias
and a changed URL, the configuration ends up with the alias pointing at
the new URL, the alias listed exactly once, and the second run choosing
`git remote set-url` (no duplicate `add`). -/
theorem set_remote_idempotent_update (cfg : List (String × String)) (n u1 u2 : String)
    (h : (remoteNames cfg).Nodup) :
    List.lookup n (set_remote_step (set_remote_step cfg n u1) n u2) = some u2 ∧
    (remoteNames (set_remote_step (set_remote_step cfg n u1) n u2)).count n = 1 ∧
    set_remote (remoteNames (set_remote_step cfg n u1)) n (some u2) =
      Event.gitRemoteSetUrl n (some u2) := by
  have hmem1 : n ∈ remoteNames (set_remote_step cfg n u1) :=
    mem_remoteNames_set_remote_step cfg n u1
  have hstep2 : set_remote_step (set_remote_step cfg n u1) n u2 =
      setUrlUpdate (set_remote_step cfg n u1) n u2 :=
    set_remote_step_of_mem _ n u2 hmem1
  have hcount1 : (remoteNames (set_remote_step cfg n u1)).count n = 1 := by
    by_cases hm : n ∈ remoteNames cfg
    · rw [set_remote_step_of_mem cfg n u1 hm, remoteNames_setUrlUpdate]
      exact List.count_eq_one_of_mem h hm
    · rw [set_remote_step_of_not_mem cfg n u1 hm, remoteNames_append_single]
      simp [List.count_append, List.count_eq_zero_of_not_mem hm]
  refine ⟨?_, ?_, ?_⟩
  · rw [hstep2]
    exact lookup_setUrlUpdate_self _ n u2 hmem1
  · rw [hstep2, remoteNames_setUrlUpdate]
    exact hcount1
  · simp [set_remote, hmem1]

theorem set_remote_idempotent_update_witness :
    List.lookup "origin"
        (set_remote_step (set_remote_step [("upstream", "u0")] "origin" "u1")
          "origin" "u2") = some "u2" ∧
    (remoteNames (set_remote_step (set_remote_step [("upstream", "u0")] "origin" "u1")
        "origin" "u2")).count "origin" = 1 ∧
    set_remote (remoteNames (set_remote_step [("upstream", "u0")] "origin" "u1"))
        "origin" (some "u2") = Event.gitRemoteSetUrl "origin" (some "u2") :=
  set_remote_idempotent_update [("upstream", "u0")] "origin" "u1" "u2" (by decide)


/-! ## Structure lemmas about the orchestrator pipeline -/

lemma mainRun_skip (args : Args) (w : MainWorld) (h : args.skip_create = true) :
    mainRun args w = mainAfterToken args w none := by
  simp [mainRun, h]

lemma mainRun_token_none (args : Args) (w : MainWorld)
    (hsc : args.skip_create = false)
    (ht : (get_github_token (!args.no_prompt_token) w.cred).token = none) :
    mainRun args w = ([Event.resolveCredential], Except.error Err.credentialMissing) := by
  simp [mainRun, hsc, ht]

lemma mainRun_token_some (args : Args) (w : MainWorld) (t : String)
    (hsc : args.skip_create = false)
    (ht : (get_github_token (!args.no_prompt_token) w.cred).token = some t) :
    mainRun args w =
      (Event.resolveCredential :: (mainAfterToken args w (some t)).1,
       (mainAfterToken args w (some t)).2) := by
  simp [mainRun, hsc, ht]

lemma mainAfterToken_dirty (args : Args) (w : MainWorld) (token : Option String)
    (h : w.git.statusOut ≠ "") :
    mainAfterToken args w token =
      (ensure_git_repo w.git ++ [Event.gitStatus], Except.error Err.workingTreeDirty) := by
  simp [mainAfterToken, ensure_clean_tree, bne_iff_ne, h]

lemma mainAfterToken_clean (args : Args) (w : MainWorld) (token : Option String)
    (h : w.git.statusOut = "") :
    mainAfterToken args w token =
      (ensure_git_repo w.git ++ [Event.gitStatus] ++ (mainAfterClean args w token).1,
       (mainAfterClean args w token).2) := by
  simp [mainAfterToken, ensure_clean_tree, h]

lemma mem_pre_events (g : GitWorld) (e : Event)
    (h : e ∈ ensure_git_repo g ++ [Event.gitStatus]) :
    e = Event.gitInit ∨ e = Event.gitStatus := by
  unfold ensure_git_repo at h
  by_cases hg : g.hasGitDir
  · simp [hg] at h
    exact Or.inr h
  · simp [hg] at h
    exact h

lemma create_repo_201 (resp : CreateResp) (h : resp.status = 201) :
    create_repo resp = Except.ok (some resp.json, []) := by
  simp [create_repo, h]

lemma create_repo_422 (resp : CreateResp) (h : resp.status = 422) :
    create_repo resp = Except.ok (none, [createWarning resp.text]) := by
  simp [create_repo, h]

lemma mainFinish_snd_ok (args : Args) (w : MainWorld) (o u : Option String) :
    (mainFinish args w o u).2 =
      Except.ok { owner := o, remote_url := u, pushed := !args.dry_run } := by
  by_cases h : args.dry_run = true
  · simp [mainFinish, h]
  · simp only [Bool.not_eq_true] at h
    simp [mainFinish, h]

lemma mainFinish_dry_fst (args : Args) (w : MainWorld) (o u : Option String)
    (h : args.dry_run = true) :
    (mainFinish args w o u).1 =
      [Event.gitRemoteList, set_remote w.git.remotes args.remote_name u,
       Event.printPlan u args.branch args.remote_name] := by
  simp [mainFinish, h]

lemma set_remote_mem_mainFinish_fst (args : Args) (w : MainWorld) (o u : Option String) :
    set_remote w.git.remotes args.remote_name u ∈ (mainFinish args w o u).1 := by
  by_cases h : args.dry_run = true <;> simp [mainFinish, h]

lemma set_remote_ne_push (remotes : List String) (n : String) (u : Option String)
    (r b : String) : set_remote remotes n u ≠ Event.gitPush r b := by
  unfold set_remote
  split <;> simp

lemma set_remote_ne_httpCreateRepo (remotes : List String) (n : String)
    (u : Option String) : set_remote remotes n u ≠ Event.httpCreateRepo := by
  unfold set_remote
  split <;> simp

lemma httpCreateRepo_not_mem_mainFinish (args : Args) (w : MainWorld)
    (o u : Option String) : Event.httpCreateRepo ∉ (mainFinish args w o u).1 := by
  have hsr := set_remote_ne_httpCreateRepo w.git.remotes args.remote_name u
  by_cases h : args.dry_run = true <;>
    simp [mainFinish, h] <;>
    exact fun h0 => hsr h0.symm

lemma resolveRemote_fst (ao tok : Option String) (info : Option RepoInfo)
    (rn : String) (ur : UserResp) :
    (resolveRemote ao tok info rn ur).1 = [] ∨
    (resolveRemote ao tok info rn ur).1 = [Event.httpGetUser] := by
  cases info with
  | some i => left; simp [resolveRemote]
  | none =>
      by_cases hao : optTruthy ao = true
      · left
        simp [resolveRemote, hao]
      · have hao' : optTruthy ao = false := by simpa using hao
        by_cases htok : optTruthy tok = true
        · right
          cases hal : get_authed_login ur with
          | error e => simp [resolveRemote, hao', htok, hal]
          | ok l =>
              by_cases hl : optTruthy (some l) = true
              · simp [resolveRemote, hao', htok, hal, hl]
              · simp [resolveRemote, hao', htok, hal, hl]
        · have htok' : optTruthy tok = false := by simpa using htok
          left
          simp [resolveRemote, hao', htok']

lemma resolveRemote_error_cases (ao tok : Option String) (info : Option RepoInfo)
    (rn : String) (ur : UserResp) (e : Err)
    (h : (resolveRemote ao tok info rn ur).2 = Except.error e) :
    e = Err.authLookup ∨ e = Err.ownerUnresolved := by
  cases info with
  | some i => simp [resolveRemote] at h
  | none =>
      by_cases hao : optTruthy ao = true
      · simp [resolveRemote, hao] at h
      · have hao' : optTruthy ao = false := by simpa using hao
        by_cases htok : optTruthy tok = true
        · cases hal : get_authed_login ur with
          | error e' =>
              have he' := get_authed_login_error ur e' hal
              simp [resolveRemote, hao', htok, hal] at h
              exact Or.inl (h ▸ he')
          | ok l =>
              by_cases hl : optTruthy (some l) = true
              · simp [resolveRemote, hao', htok, hal, hl] at h
              · simp [resolveRemote, hao', htok, hal, hl] at h
                exact Or.inr h.symm
        · have htok' : optTruthy tok = false := by simpa using htok
          simp [resolveRemote, hao', htok'] at h
          exact Or.inr h.symm

lemma mainResolveRemote_shape (args : Args) (w : MainWorld) (token : Option String)
    (info : Option RepoInfo) (rn : String) :
    (∃ e, (resolveRemote args.owner token info rn w.userResp).2 = Except.error e ∧
       mainResolveRemote args w token info rn =
         ((resolveRemote args.owner token info rn w.userResp).1, Except.error e)) ∨
    (∃ o u, (resolveRemote args.owner token info rn w.userResp).2 = Except.ok (o, u) ∧
      mainResolveRemote args w token info rn =
        ((resolveRemote args.owner token info rn w.userResp).1 ++ (mainFinish args w o u).1,
         (mainFinish args w o u).2)) := by
  rcases hr : resolveRemote args.owner token info rn w.userResp with ⟨ev, r⟩
  cases r with
  | error e =>
      left
      exact ⟨e, rfl, by simp [mainResolveRemote, hr]⟩
  | ok p =>
      obtain ⟨o, u⟩ := p
      right
      exact ⟨o, u, rfl, by simp [mainResolveRemote, hr]⟩

lemma mainResolveRemote_snd_error_cases (args : Args) (w : MainWorld)
    (token : Option String) (info : Option RepoInfo) (rn : String) (e : Err)
    (h : (mainResolveRemote args w token info rn).2 = Except.error e) :
    e = Err.authLookup ∨ e = Err.ownerUnresolved := by
  rcases mainResolveRemote_shape args w token info rn with ⟨e', hr, hE⟩ | ⟨o, u, hok, hE⟩
  · rw [hE] at h
    simp at h
    exact h ▸ resolveRemote_error_cases _ _ _ _ _ _ hr
  · rw [hE] at h
    simp [mainFinish_snd_ok] at h

lemma mainResolveRemote_fst_prefix (args : Args) (w : MainWorld)
    (token : Option String) (info : Option RepoInfo) (rn : String) :
    ∃ rest, (mainResolveRemote args w token info rn).1 =
      (resolveRemote args.owner token info rn w.userResp).1 ++ rest := by
  rcases mainResolveRemote_shape args w token info rn with ⟨e, hr, hE⟩ | ⟨o, u, hok, hE⟩
  · exact ⟨[], by simp [hE]⟩
  · exact ⟨(mainFinish args w o u).1, by simp [hE]⟩


/-- Events that can appear in a trace before (or instead of) the
remote-configuration step: everything except `git remote` listing and
mutation, the dry-run print, `git push`, and the success print. -/
def benignEvent (x : Event) : Prop :=
  x = Event.resolveCredential ∨ x = Event.gitInit ∨ x = Event.gitStatus ∨
  x = Event.httpCreateRepo ∨ x = Event.httpGetUser ∨ ∃ m, x = Event.warn m

lemma benignEvent_ne_push (x : Event) (hx : benignEvent x) (r b : String) :
    x ≠ Event.gitPush r b := by
  rcases hx with h | h | h | h | h | ⟨m, h⟩ <;> subst h <;> simp

lemma benignEvent_ne_remoteList (x : Event) (hx : benignEvent x) :
    x ≠ Event.gitRemoteList := by
  rcases hx with h | h | h | h | h | ⟨m, h⟩ <;> subst h <;> simp

lemma mainAfterClean_shape (args : Args) (w : MainWorld) (token : Option String) :
    (∃ e, mainAfterClean args w token = ([Event.httpCreateRepo], Except.error e) ∧
       create_repo w.createResp = Except.error e) ∨
    (∃ pre info, (∀ x ∈ pre, benignEvent x) ∧
      mainAfterClean args w token =
        (pre ++ (mainResolveRemote args w token info (pyOr args.repo w.git.rootName)).1,
         (mainResolveRemote args w token info (pyOr args.repo w.git.rootName)).2)) := by
  by_cases hs : args.skip_create = true
  · right
    exact ⟨[], none, by simp, by simp [mainAfterClean, hs]⟩
  · have hs' : args.skip_create = false := by simpa using hs
    cases hc : create_repo w.createResp with
    | error e =>
        left
        exact ⟨e, by simp [mainAfterClean, hs', hc], rfl⟩
    | ok p =>
        obtain ⟨info, warns⟩ := p
        right
        refine ⟨Event.httpCreateRepo :: warns.map Event.warn, info, ?_, ?_⟩
        · intro x hx
          rcases List.mem_cons.mp hx with h | h
          · exact Or.inr (Or.inr (Or.inr (Or.inl h)))
          · rcases List.mem_map.mp h with ⟨m, _, hm⟩
            exact Or.inr (Or.inr (Or.inr (Or.inr (Or.inr ⟨m, hm.symm⟩))))
        · simp [mainAfterClean, hs', hc]

lemma mainAfterToken_shape (args : Args) (w : MainWorld) (token : Option String) :
    ((∀ x ∈ (mainAfterToken args w token).1, benignEvent x) ∧
      ∃ e, (mainAfterToken args w token).2 = Except.error e) ∨
    (∃ pre o u, (∀ x ∈ pre, benignEvent x) ∧
      mainAfterToken args w token =
        (pre ++ (mainFinish args w o u).1, (mainFinish args w o u).2)) := by
  by_cases hclean : w.git.statusOut = ""
  · rw [mainAfterToken_clean args w token hclean]
    have hpre0 : ∀ x ∈ ensure_git_repo w.git ++ [Event.gitStatus], benignEvent x := by
      intro x hx
      rcases mem_pre_events w.git x hx with h | h
      · exact Or.inr (Or.inl h)
      · exact Or.inr (Or.inr (Or.inl h))
    rcases mainAfterClean_shape args w token with ⟨e, hE, _⟩ | ⟨pre, info, hpre, hE⟩
    · left
      rw [hE]
      constructor
      · intro x hx
        simp only [List.mem_append] at hx
        rcases hx with hx | hx
        · exact hpre0 x (List.mem_append.mpr hx)
        · simp at hx
          subst hx
          exact Or.inr (Or.inr (Or.inr (Or.inl rfl)))
      · exact ⟨e, rfl⟩
    · rw [hE]
      rcases mainResolveRemote_shape args w token info (pyOr args.repo w.git.rootName) with
        ⟨e, hr, hM⟩ | ⟨o, u, hok, hM⟩
      · left
        rw [hM]
        constructor
        · intro x hx
          simp only [List.mem_append] at hx
          rcases hx with hx | hx
          · exact hpre0 x (List.mem_append.mpr hx)
          · rcases hx with hx | hx
            · exact hpre x hx
            · rcases resolveRemote_fst args.owner token info (pyOr args.repo w.git.rootName)
                w.userResp with hf | hf
              · rw [hf] at hx
                simp at hx
              · rw [hf] at hx
                simp at hx
                subst hx
                exact Or.inr (Or.inr (Or.inr (Or.inr (Or.inl rfl))))
        · exact ⟨e, rfl⟩
      · right
        rw [hM]
        refine ⟨(ensure_git_repo w.git ++ [Event.gitStatus]) ++
          (pre ++ (resolveRemote args.owner token info (pyOr args.repo w.git.rootName)
            w.userResp).1), o, u, ?_, by simp⟩
        intro x hx
        simp only [List.mem_append] at hx
        rcases hx with hx | hx | hx
        · exact hpre0 x (List.mem_append.mpr hx)
        · exact hpre x hx
        · rcases resolveRemote_fst args.owner token info (pyOr args.repo w.git.rootName)
            w.userResp with hf | hf
          · rw [hf] at hx
            simp at hx
          · rw [hf] at hx
            simp at hx
            subst hx
            exact Or.inr (Or.inr (Or.inr (Or.inr (Or.inl rfl))))
  · left
    rw [mainAfterToken_dirty args w token hclean]
    constructor
    · intro x hx
      rcases mem_pre_events w.git x hx with h | h
      · exact Or.inr (Or.inl h)
      · exact Or.inr (Or.inr (Or.inl h))
    · exact ⟨Err.workingTreeDirty, rfl⟩

lemma mainRun_shape (args : Args) (w : MainWorld) :
    ((∀ x ∈ (mainRun args w).1, benignEvent x) ∧
      ∃ e, (mainRun args w).2 = Except.error e) ∨
    (∃ pre o u, (∀ x ∈ pre, benignEvent x) ∧
      mainRun args w = (pre ++ (mainFinish args w o u).1, (mainFinish args w o u).2)) := by
  by_cases hs : args.skip_create = true
  · rw [mainRun_skip args w hs]
    exact mainAfterToken_shape args w none
  · have hs' : args.skip_create = false := by simpa using hs
    cases ht : (get_github_token (!args.no_prompt_token) w.cred).token with
    | none =>
        left
        rw [mainRun_token_none args w hs' ht]
        exact ⟨by intro x hx; simp at hx; subst hx; exact Or.inl rfl,
               ⟨Err.credentialMissing, rfl⟩⟩
    | some t =>
        rw [mainRun_token_some args w t hs' ht]
        rcases mainAfterToken_shape args w (some t) with ⟨hben, e, hE⟩ | ⟨pre, o, u, hpre, hE⟩
        · left
          constructor
          · intro x hx
            rcases List.mem_cons.mp hx with h | h
            · exact Or.inl h
            · exact hben x h
          · exact ⟨e, hE⟩
        · right
          refine ⟨Event.resolveCredential :: pre, o, u, ?_, ?_⟩
          · intro x hx
            rcases List.mem_cons.mp hx with h | h
            · exact Or.inl h
            · exact hpre x h
          · rw [hE]
            simp


/-! ## Claim C1 -/

/-- Concrete run refuting C1 as stated: creation not skipped, environment
token available, dirty working tree. -/
def cargs1 : Args := {}

/-- World for the C1 counterexample and witness. -/
def cw1 : MainWorld :=
  { git := { rootName := "p", hasGitDir := true, statusOut := "M x", remotes := [] },
    cred := { envToken := "tok", envAfterLoad := "", gh := GhOutcome.raised,
              stdinIsTty := false, promptInput := "" },
    createResp := { status := 0, text := "",
                    json := { owner_login := none, clone_url := none } },
    userResp := { status := 0, loginField := none } }

/-- C1 counterexample: in this run the trace is exactly
`[resolveCredential, gitStatus]` — the credential is resolved BEFORE the
clean-tree check, and the clean-tree check then fails, so credential
resolution occurred in a run in which the clean-tree check never passed,
contradicting the claim that resolution never occurs before the
clean-tree check has passed. -/
theorem credential_before_clean_check_cex :
    (mainRun cargs1 cw1).1 = [Event.resolveCredential, Event.gitStatus] ∧
    (mainRun cargs1 cw1).2 = Except.error Err.workingTreeDirty := by
  constructor
  · rfl
  · rfl

/-- C1 (amended): in every run that does not skip creation the
orchestrator resolves the credential FIRST — before ensuring the
repository exists and before the clean-tree check — and the repository
CREATION call is only issued after the clean-tree check has passed. -/
theorem credential_first_create_after_clean_check (args : Args) (w : MainWorld)
    (hsc : args.skip_create = false) :
    (∃ tl, (mainRun args w).1 = Event.resolveCredential :: tl) ∧
    (Event.httpCreateRepo ∈ (mainRun args w).1 → w.git.statusOut = "") := by
  cases ht : (get_github_token (!args.no_prompt_token) w.cred).token with
  | none =>
      rw [mainRun_token_none args w hsc ht]
      exact ⟨⟨[], rfl⟩, by simp⟩
  | some t =>
      rw [mainRun_token_some args w t hsc ht]
      refine ⟨⟨(mainAfterToken args w (some t)).1, rfl⟩, ?_⟩
      intro hmem
      by_cases hclean : w.git.statusOut = ""
      · exact hclean
      · rw [mainAfterToken_dirty args w (some t) hclean] at hmem
        rcases List.mem_cons.mp hmem with h | h
        · simp at h
        · rcases mem_pre_events w.git _ h with h0 | h0 <;> simp at h0

theorem credential_first_create_after_clean_check_witness :
    (∃ tl, (mainRun cargs1 cw1).1 = Event.resolveCredential :: tl) ∧
    (Event.httpCreateRepo ∈ (mainRun cargs1 cw1).1 → cw1.git.statusOut = "") :=
  credential_first_create_after_clean_check cargs1 cw1 (by decide)

/-! ## Claim C2 -/

lemma mainAfterClean_snd_ne_dirty (args : Args) (w : MainWorld) (token : Option String) :
    (mainAfterClean args w token).2 ≠ Except.error Err.workingTreeDirty := by
  intro h
  rcases mainAfterClean_shape args w token with ⟨e, hE, hc⟩ | ⟨pre, info, hpre, hE⟩
  · rw [hE] at h
    simp at h
    subst h
    rcases create_repo_error _ _ hc with ⟨st, b, hsb⟩
    simp at hsb
  · rw [hE] at h
    rcases mainResolveRemote_snd_error_cases args w token info
      (pyOr args.repo w.git.rootName) Err.workingTreeDirty h with h1 | h1 <;> simp at h1

/-- C2: a working tree with zero pending changes passes the clean check
(the run never fails with WorkingTreeDirtyError); a tree whose status
query reports at least one entry makes the clean check — whenever it is
reached — fail with WorkingTreeDirtyError, and no creation call, no
authenticated-user lookup and no push is ever performed in such a run. -/
theorem clean_check_gates_remote_operations (args : Args) (w : MainWorld) :
    (w.git.statusOut = "" →
      (mainRun args w).2 ≠ Except.error Err.workingTreeDirty) ∧
    (w.git.statusOut ≠ "" →
      (Event.gitStatus ∈ (mainRun args w).1 →
        (mainRun args w).2 = Except.error Err.workingTreeDirty) ∧
      Event.httpCreateRepo ∉ (mainRun args w).1 ∧
      Event.httpGetUser ∉ (mainRun args w).1 ∧
      ∀ r b, Event.gitPush r b ∉ (mainRun args w).1) := by
  constructor
  · intro hclean hcon
    by_cases hs : args.skip_create = true
    · rw [mainRun_skip args w hs, mainAfterToken_clean args w none hclean] at hcon
      exact mainAfterClean_snd_ne_dirty args w none hcon
    · have hs' : args.skip_create = false := by simpa using hs
      cases ht : (get_github_token (!args.no_prompt_token) w.cred).token with
      | none =>
          rw [mainRun_token_none args w hs' ht] at hcon
          simp at hcon
      | some t =>
          rw [mainRun_token_some args w t hs' ht,
             mainAfterToken_clean args w (some t) hclean] at hcon
          exact mainAfterClean_snd_ne_dirty args w (some t) hcon
  · intro hdirty
    by_cases hs : args.skip_create = true
    · rw [mainRun_skip args w hs, mainAfterToken_dirty args w none hdirty]
      refine ⟨fun _ => rfl, ?_, ?_, ?_⟩
      · intro hmem
        rcases mem_pre_events w.git _ hmem with h | h <;> simp at h
      · intro hmem
        rcases mem_pre_events w.git _ hmem with h | h <;> simp at h
      · intro r b hmem
        rcases mem_pre_events w.git _ hmem with h | h <;> simp at h
    · have hs' : args.skip_create = false := by simpa using hs
      cases ht : (get_github_token (!args.no_prompt_token) w.cred).token with
      | none =>
          rw [mainRun_token_none args w hs' ht]
          refine ⟨?_, ?_, ?_, ?_⟩
          · intro hmem
            simp at hmem
          · simp
          · simp
          · intro r b
            simp
      | some t =>
          rw [mainRun_token_some args w t hs' ht,
             mainAfterToken_dirty args w (some t) hdirty]
          refine ⟨fun _ => rfl, ?_, ?_, ?_⟩
          · intro hmem
            rcases List.mem_cons.mp hmem with h | h
            · simp at h
            · rcases mem_pre_events w.git _ h with h0 | h0 <;> simp at h0
          · intro hmem
            rcases List.mem_cons.mp hmem with h | h
            · simp at h
            · rcases mem_pre_events w.git _ h with h0 | h0 <;> simp at h0
          · intro r b hmem
            rcases List.mem_cons.mp hmem with h | h
            · simp at h
            · rcases mem_pre_events w.git _ h with h0 | h0 <;> simp at h0

/-- Arguments for the C2 witness: defaults, creation not skipped. -/
def argsW2 : Args := {}

/-- World for the C2 witness: environment token available, one untracked
file in the status output. -/
def mainW2 : MainWorld :=
  { git := { rootName := "p", hasGitDir := true, statusOut := "?? f.txt", remotes := [] },
    cred := { envToken := "tok", envAfterLoad := "", gh := GhOutcome.raised,
              stdinIsTty := false, promptInput := "" },
    createResp := { status := 201, text := "",
                    json := { owner_login := some "alice", clone_url := some "u" } },
    userResp := { status := 200, loginField := some "alice" } }

theorem clean_check_gates_remote_operations_witness :
    (mainRun argsW2 mainW2).2 = Except.error Err.workingTreeDirty ∧
    Event.httpCreateRepo ∉ (mainRun argsW2 mainW2).1 ∧
    Event.httpGetUser ∉ (mainRun argsW2 mainW2).1 := by
  have h := (clean_check_gates_remote_operations argsW2 mainW2).2 (by decide)
  exact ⟨h.1 (by decide), h.2.1, h.2.2.1⟩

/-! ## Claim C7 -/

/-- C7: with `--dry-run`, `git push` is never spawned in any run, and
every run that reaches the remote-configuration step terminates
successfully (exit status zero) with `pushed = false` after printing the
planned URL, branch and remote alias. -/
theorem dry_run_never_pushes_exits_zero (args : Args) (w : MainWorld)
    (hdr : args.dry_run = true) :
    (∀ r b, Event.gitPush r b ∉ (mainRun args w).1) ∧
    (Event.gitRemoteList ∈ (mainRun args w).1 →
      ∃ res, (mainRun args w).2 = Except.ok res ∧ res.pushed = false ∧
        Event.printPlan res.remote_url args.branch args.remote_name ∈
          (mainRun args w).1) := by
  rcases mainRun_shape args w with ⟨hben, e, hE⟩ | ⟨pre, o, u, hpre, hE⟩
  · constructor
    · intro r b hmem
      exact benignEvent_ne_push _ (hben _ hmem) r b rfl
    · intro hmem
      exact absurd rfl (benignEvent_ne_remoteList _ (hben _ hmem))
  · have hfin1 := mainFinish_dry_fst args w o u hdr
    constructor
    · intro r b hmem
      rw [hE] at hmem
      simp only [List.mem_append] at hmem
      rcases hmem with hmem | hmem
      · exact benignEvent_ne_push _ (hpre _ hmem) r b rfl
      · rw [hfin1] at hmem
        simp at hmem
        exact set_remote_ne_push w.git.remotes args.remote_name u r b hmem.symm
    · intro _
      refine ⟨{ owner := o, remote_url := u, pushed := false }, ?_, rfl, ?_⟩
      · rw [hE]
        have := mainFinish_snd_ok args w o u
        rw [hdr] at this
        simpa using this
      · rw [hE]
        simp only [List.mem_append]
        right
        rw [hfin1]
        simp

/-- Arguments for the C7 witness: dry run with creation skipped and an
explicit owner. -/
def argsW7 : Args :=
  { repo := some "proj", owner := some "bob", skip_create := true, dry_run := true }

/-- World for the C7 witness: clean tree. -/
def mainW7 : MainWorld :=
  { git := { rootName := "p", hasGitDir := true, statusOut := "", remotes := [] },
    cred := { envToken := "", envAfterLoad := "", gh := GhOutcome.raised,
              stdinIsTty := false, promptInput := "" },
    createResp := { status := 0, text := "",
                    json := { owner_login := none, clone_url := none } },
    userResp := { status := 0, loginField := none } }

theorem dry_run_never_pushes_exits_zero_witness :
    (∀ r b, Event.gitPush r b ∉ (mainRun argsW7 mainW7).1) ∧
    (Event.gitRemoteList ∈ (mainRun argsW7 mainW7).1 →
      ∃ res, (mainRun argsW7 mainW7).2 = Except.ok res ∧ res.pushed = false ∧
        Event.printPlan res.remote_url argsW7.branch argsW7.remote_name ∈
          (mainRun argsW7 mainW7).1) :=
  dry_run_never_pushes_exits_zero argsW7 mainW7 (by decide)


/-! ## Claim C4 -/

/-- C4: a 422 creation response lets no exception escape `create_repo`
(it returns `none` together with a stderr warning); in the surrounding
run the warning is emitted, the run never aborts with
RepositoryCreationError, and — when no `--owner` was given — it falls
through to the owner-resolution path (`GET /user` is issued). -/
theorem create_repo_422_warns_and_falls_through (args : Args) (w : MainWorld)
    (t : String)
    (hsc : args.skip_create = false) (hclean : w.git.statusOut = "")
    (ht : (get_github_token (!args.no_prompt_token) w.cred).token = some t)
    (h422 : w.createResp.status = 422) :
    create_repo w.createResp = Except.ok (none, [createWarning w.createResp.text]) ∧
    Event.warn (createWarning w.createResp.text) ∈ (mainRun args w).1 ∧
    (∀ s b, (mainRun args w).2 ≠ Except.error (Err.repositoryCreation s b)) ∧
    (args.owner = none → Event.httpGetUser ∈ (mainRun args w).1) := by
  have hcr := create_repo_422 w.createResp h422
  have hac : mainAfterClean args w (some t) =
      (Event.httpCreateRepo :: (Event.warn (createWarning w.createResp.text) ::
        (mainResolveRemote args w (some t) none (pyOr args.repo w.git.rootName)).1),
       (mainResolveRemote args w (some t) none (pyOr args.repo w.git.rootName)).2) := by
    simp [mainAfterClean, hsc, hcr]
  refine ⟨hcr, ?_, ?_, ?_⟩
  · rw [mainRun_token_some args w t hsc ht,
       mainAfterToken_clean args w (some t) hclean, hac]
    simp
  · intro st b hcon
    rw [mainRun_token_some args w t hsc ht,
       mainAfterToken_clean args w (some t) hclean, hac] at hcon
    rcases mainResolveRemote_snd_error_cases args w (some t) none
      (pyOr args.repo w.git.rootName) _ hcon with h1 | h1 <;> simp at h1
  · intro how
    have htne := get_github_token_some_ne_empty _ _ _ ht
    have hc1 : optTruthy args.owner = false := by rw [how]; rfl
    have hc2 : optTruthy (some t) = true := by
      simp [optTruthy, bne_iff_ne, htne]
    have hrrf : (resolveRemote args.owner (some t) none
        (pyOr args.repo w.git.rootName) w.userResp).1 = [Event.httpGetUser] := by
      cases hal : get_authed_login w.userResp with
      | error e => simp [resolveRemote, hc1, hc2, hal]
      | ok l =>
          by_cases hl : optTruthy (some l) = true
          · simp [resolveRemote, hc1, hc2, hal, hl]
          · simp [resolveRemote, hc1, hc2, hal, hl]
    obtain ⟨rest, hpr⟩ := mainResolveRemote_fst_prefix args w (some t) none
      (pyOr args.repo w.git.rootName)
    have hmemr : Event.httpGetUser ∈ (mainResolveRemote args w (some t) none
        (pyOr args.repo w.git.rootName)).1 := by
      rw [hpr, hrrf]
      simp
    rw [mainRun_token_some args w t hsc ht,
       mainAfterToken_clean args w (some t) hclean, hac]
    simp only [List.mem_cons, List.mem_append]
    tauto

/-- Arguments for the C4 witness: no explicit owner. -/
def argsW4 : Args := {}

/-- World for the C4 witness: clean tree, env token, 422 creation
response, authenticated user `carol`. -/
def mainW4 : MainWorld :=
  { git := { rootName := "p", hasGitDir := true, statusOut := "", remotes := [] },
    cred := { envToken := "tok", envAfterLoad := "", gh := GhOutcome.raised,
              stdinIsTty := false, promptInput := "" },
    createResp := { status := 422, text := "name already exists",
                    json := { owner_login := none, clone_url := none } },
    userResp := { status := 200, loginField := some "carol" } }

theorem create_repo_422_warns_and_falls_through_witness :
    create_repo mainW4.createResp =
      Except.ok (none, [createWarning mainW4.createResp.text]) ∧
    Event.warn (createWarning mainW4.createResp.text) ∈ (mainRun argsW4 mainW4).1 ∧
    Event.httpGetUser ∈ (mainRun argsW4 mainW4).1 := by
  have h := create_repo_422_warns_and_falls_through argsW4 mainW4 "tok"
    (by decide) (by decide) (by decide) (by decide)
  exact ⟨h.1, h.2.1, h.2.2.2 (by decide)⟩

/-! ## Claim C5 -/

/-- C5: a 201 creation response whose body names owner login `alice` and
carries a clone URL makes the run configure the remote to exactly that
clone URL and carry `alice` as the owner for the rest of the run,
regardless of any `--owner` argument. -/
theorem create_201_owner_and_clone_url_used (args : Args) (w : MainWorld)
    (t u : String)
    (hsc : args.skip_create = false) (hclean : w.git.statusOut = "")
    (ht : (get_github_token (!args.no_prompt_token) w.cred).token = some t)
    (h201 : w.createResp.status = 201)
    (hbody : w.createResp.json =
      { owner_login := some "alice", clone_url := some u }) :
    (mainRun args w).2 =
      Except.ok { owner := some "alice", remote_url := some u,
                  pushed := !args.dry_run } ∧
    set_remote w.git.remotes args.remote_name (some u) ∈ (mainRun args w).1 := by
  have hcr := create_repo_201 w.createResp h201
  have hac : mainAfterClean args w (some t) =
      (Event.httpCreateRepo ::
        (mainResolveRemote args w (some t) (some w.createResp.json)
          (pyOr args.repo w.git.rootName)).1,
       (mainResolveRemote args w (some t) (some w.createResp.json)
          (pyOr args.repo w.git.rootName)).2) := by
    simp [mainAfterClean, hsc, hcr]
  have hrr : resolveRemote args.owner (some t) (some w.createResp.json)
      (pyOr args.repo w.git.rootName) w.userResp =
      ([], Except.ok (some "alice", some u)) := by
    simp [resolveRemote, hbody, ownerFromInfo]
  have hmrr : mainResolveRemote args w (some t) (some w.createResp.json)
      (pyOr args.repo w.git.rootName) =
      ((mainFinish args w (some "alice") (some u)).1,
       (mainFinish args w (some "alice") (some u)).2) := by
    simp [mainResolveRemote, hrr]
  rw [mainRun_token_some args w t hsc ht,
     mainAfterToken_clean args w (some t) hclean, hac, hmrr]
  constructor
  · simpa using mainFinish_snd_ok args w (some "alice") (some u)
  · have hm := set_remote_mem_mainFinish_fst args w (some "alice") (some u)
    simp only [List.mem_cons, List.mem_append]
    tauto

/-- Arguments for the C5 witness: a conflicting `--owner dave` that must
be ignored. -/
def argsW5 : Args := { owner := some "dave" }

/-- World for the C5 witness: 201 creation response owned by `alice`. -/
def mainW5 : MainWorld :=
  { git := { rootName := "p", hasGitDir := true, statusOut := "", remotes := [] },
    cred := { envToken := "tok", envAfterLoad := "", gh := GhOutcome.raised,
              stdinIsTty := false, promptInput := "" },
    createResp := { status := 201, text := "created",
                    json := { owner_login := some "alice",
                              clone_url := some "https://host/alice/repo.git" } },
    userResp := { status := 200, loginField := some "dave" } }

theorem create_201_owner_and_clone_url_used_witness :
    (mainRun argsW5 mainW5).2 =
      Except.ok { owner := some "alice",
                  remote_url := some "https://host/alice/repo.git",
                  pushed := true } ∧
    set_remote mainW5.git.remotes argsW5.remote_name
      (some "https://host/alice/repo.git") ∈ (mainRun argsW5 mainW5).1 :=
  create_201_owner_and_clone_url_used argsW5 mainW5 "tok" "https://host/alice/repo.git"
    (by decide) (by decide) (by decide) (by decide) (by decide)

/-! ## Claim C6 -/

/-- C6: with `--skip-create`, `--owner bob` and repository name `proj`,
no creation request is ever issued, and (when the clean check passes so
the run reaches URL synthesis) the remote URL is exactly
`https://github.com/bob/proj.git`. -/
theorem skip_create_synthesizes_url_no_creation_call (args : Args) (w : MainWorld)
    (hrepo : args.repo = some "proj") (howner : args.owner = some "bob")
    (hsc : args.skip_create = true) :
    Event.httpCreateRepo ∉ (mainRun args w).1 ∧
    (w.git.statusOut = "" →
      (mainRun args w).2 =
        Except.ok { owner := some "bob",
                    remote_url := some "https://github.com/bob/proj.git",
                    pushed := !args.dry_run }) := by
  have hrn : pyOr args.repo w.git.rootName = "proj" := by
    have hpt : optTruthy (some "proj") = true := by decide
    rw [hrepo]
    simp [pyOr, hpt]
  have hrr : resolveRemote args.owner none none "proj" w.userResp =
      ([], Except.ok (some "bob", some (synthUrl "bob" "proj"))) := by
    rw [howner]
    rfl
  have hmrr : mainResolveRemote args w none none "proj" =
      ((mainFinish args w (some "bob") (some (synthUrl "bob" "proj"))).1,
       (mainFinish args w (some "bob") (some (synthUrl "bob" "proj"))).2) := by
    simp [mainResolveRemote, hrr]
  have hac : mainAfterClean args w none =
      mainResolveRemote args w none none "proj" := by
    simp [mainAfterClean, hsc, hrn]
  constructor
  · by_cases hclean : w.git.statusOut = ""
    · rw [mainRun_skip args w hsc, mainAfterToken_clean args w none hclean, hac, hmrr]
      intro hmem
      simp only [List.mem_append] at hmem
      rcases hmem with hmem | hmem
      · rcases mem_pre_events w.git _ (List.mem_append.mpr hmem) with h | h <;> simp at h
      · exact httpCreateRepo_not_mem_mainFinish args w _ _ hmem
    · rw [mainRun_skip args w hsc, mainAfterToken_dirty args w none hclean]
      intro hmem
      rcases mem_pre_events w.git _ hmem with h | h <;> simp at h
  · intro hclean
    rw [mainRun_skip args w hsc, mainAfterToken_clean args w none hclean, hac, hmrr]
    have hurl : synthUrl "bob" "proj" = "https://github.com/bob/proj.git" := rfl
    have hfin := mainFinish_snd_ok args w (some "bob") (some (synthUrl "bob" "proj"))
    rw [hurl] at hfin
    simpa using hfin

/-- Arguments for the C6 witness. -/
def argsW6 : Args := { repo := some "proj", owner := some "bob", skip_create := true }

/-- World for the C6 witness: clean tree, no credential source at all
(none is needed when creation is skipped and an owner is given). -/
def mainW6 : MainWorld :=
  { git := { rootName := "other", hasGitDir := false, statusOut := "", remotes := [] },
    cred := { envToken := "", envAfterLoad := "", gh := GhOutcome.raised,
              stdinIsTty := false, promptInput := "" },
    createResp := { status := 0, text := "",
                    json := { owner_login := none, clone_url := none } },
    userResp := { status := 0, loginField := none } }

theorem skip_create_synthesizes_url_no_creation_call_witness :
    Event.httpCreateRepo ∉ (mainRun argsW6 mainW6).1 ∧
    (mainRun argsW6 mainW6).2 =
      Except.ok { owner := some "bob",
                  remote_url := some "https://github.com/bob/proj.git",
                  pushed := true } := by
  have h := skip_create_synthesizes_url_no_creation_call argsW6 mainW6
    (by decide) (by decide) (by decide)
  exact ⟨h.1, h.2 (by decide)⟩

end PushToGithub
